import Mathlib

/-!
Verification development for the kitsune TAS input recording/playback engine.

The repository contains three near-identical copies of the engine:
  * `src/tas.js` lines 16-440: event-dispatch variant with a tick hook;
  * `src/tas.js` lines 457-1044: direct-state variant without a tick hook;
  * `src/unnamed/part_000`: direct-state variant with a tick hook.

This file shallowly embeds the relevant data model and operations.  The host
keyboard handler's pressed-key map (`Ob` in the source) is modelled as a total
function `Nat → Bool` (a key absent from the JS object reads as falsy, which is
extensionally the same as being mapped to `false`).  The engine session state
(`_recording`, `_isRecording`, `_isPlaying`, `_playbackIndex`, `_frameCount`)
is modelled by the `Session` structure, with the host assumed bound (the spec's
NotBound degraded mode is host availability, outside the engine's data model).

`JSON.parse` / `JSON.stringify` are platform built-ins, not repository code;
they are modelled over the JSON fragment the engine exchanges: no string escape
sequences, no exponent notation in numbers, no whitespace (the serializer
never emits any of these).
-/

namespace Kitsune

/-- The abstract six-flag input vector, one flag per direction slot
(0 left, 1 right, 2 up, 3 down, 4 action, 5 cancel). -/
structure InputVector where
  left : Bool
  right : Bool
  up : Bool
  down : Bool
  action : Bool
  cancel : Bool
deriving DecidableEq, Repr

/-- One recorded frame, exactly as pushed by `recordFrame` in
`src/tas.js` lines 290-298: the frame counter plus the six flags.
(The `part_000` variant additionally pushes a derived `hasInput` key;
that is modelled separately by `recordFieldsP0` below.) -/
structure FrameRecord where
  frame : Nat
  left : Bool
  right : Bool
  up : Bool
  down : Bool
  action : Bool
  cancel : Bool
deriving DecidableEq, Repr

/-- Decimal digit character for a digit value 0-9 (larger inputs clamp to 9;
they never occur). -/
def digitCh : Nat → Char
  | 0 => '0'
  | 1 => '1'
  | 2 => '2'
  | 3 => '3'
  | 4 => '4'
  | 5 => '5'
  | 6 => '6'
  | 7 => '7'
  | 8 => '8'
  | _ => '9'

/-- Numeric value of a decimal digit character (non-digits read as 0). -/
def dVal (c : Char) : Nat :=
  if c = '1' then 1 else if c = '2' then 2 else if c = '3' then 3
  else if c = '4' then 4 else if c = '5' then 5 else if c = '6' then 6
  else if c = '7' then 7 else if c = '8' then 8 else if c = '9' then 9
  else 0

/-- Is `c` a decimal digit character. -/
def isDigitCh (c : Char) : Bool := '0' ≤ c && c ≤ '9'

/-- Decimal representation of a natural number, most significant digit first.
Models the text `JSON.stringify` emits for a non-negative integer. -/
def natLex (n : Nat) : List Char :=
  if n < 10 then [digitCh n]
  else natLex (n / 10) ++ [digitCh (n % 10)]
termination_by n
decreasing_by exact Nat.div_lt_self (by omega) (by omega)

/-- Value of a list of decimal digit characters, most significant first. -/
def digitsVal (ds : List Char) : Nat :=
  ds.foldl (fun a c => 10 * a + dVal c) 0

/-- JSON values, as produced by the modelled `JSON.parse`.  Numbers keep their
source lexeme (the engine never does arithmetic on parsed numbers). -/
inductive JValue where
  | null
  | bool (b : Bool)
  | num (lexeme : String)
  | str (s : String)
  | arr (elems : List JValue)
  | obj (fields : List (String × JValue))
deriving Repr

/-- The opening brace character. -/
def lbrace : Char := Char.ofNat 123

/-- The closing brace character. -/
def rbrace : Char := Char.ofNat 125

/-- Text of a JSON boolean. -/
def encodeBool (b : Bool) : List Char := if b then "true".data else "false".data

/-- The exact text `JSON.stringify` produces for one recorded frame object:
keys in insertion order `frame,left,right,up,down,action,cancel`. -/
def encodeRecord (r : FrameRecord) : List Char :=
  lbrace :: ("\"frame\":".data ++ natLex r.frame
    ++ ",\"left\":".data ++ encodeBool r.left
    ++ ",\"right\":".data ++ encodeBool r.right
    ++ ",\"up\":".data ++ encodeBool r.up
    ++ ",\"down\":".data ++ encodeBool r.down
    ++ ",\"action\":".data ++ encodeBool r.action
    ++ ",\"cancel\":".data ++ encodeBool r.cancel
    ++ [rbrace])

/-- Tail of the serialized array: `,record` repeated, then `]`. -/
def encTail : List FrameRecord → List Char
  | [] => [']']
  | r :: tl => ',' :: (encodeRecord r ++ encTail tl)

/-- The exact text `JSON.stringify` produces for a recorded sequence. -/
def encodeSeq : List FrameRecord → List Char
  | [] => '[' :: [']']
  | r :: tl => '[' :: (encodeRecord r ++ encTail tl)

/-- The JSON value of one recorded frame. -/
def jsonOfRecord (r : FrameRecord) : JValue :=
  .obj [("frame", .num (String.mk (natLex r.frame))),
        ("left", .bool r.left), ("right", .bool r.right),
        ("up", .bool r.up), ("down", .bool r.down),
        ("action", .bool r.action), ("cancel", .bool r.cancel)]

/-- The JSON value of a recorded sequence. -/
def jsonOfSeq (l : List FrameRecord) : JValue := .arr (l.map jsonOfRecord)

/-- Split off the maximal leading run of decimal digits. -/
def takeDigits : List Char → List Char × List Char
  | [] => ([], [])
  | c :: tl =>
    if isDigitCh c then
      let p := takeDigits tl
      (c :: p.1, p.2)
    else ([], c :: tl)

/-- Parse an unsigned JSON number lexeme: digits, optionally `.` digits. -/
def parseNumCore (cs : List Char) : Option (List Char × List Char) :=
  match takeDigits cs with
  | ([], _) => none
  | (d :: ds, rest) =>
    match rest with
    | [] => some (d :: ds, [])
    | c :: tl =>
      if c = '.' then
        match takeDigits tl with
        | ([], _) => none
        | (f :: fs, rest2) => some (d :: ds ++ '.' :: f :: fs, rest2)
      else some (d :: ds, c :: tl)

/-- Parse a JSON number lexeme with optional leading minus sign. -/
def parseNum (cs : List Char) : Option (List Char × List Char) :=
  match cs with
  | [] => none
  | c :: tl =>
    if c = '-' then (parseNumCore tl).map (fun p => ('-' :: p.1, p.2))
    else parseNumCore cs

/-- Scan a JSON string body up to the closing quote (no escape sequences in
the modelled fragment). -/
def takeStr : List Char → Option (List Char × List Char)
  | [] => none
  | c :: tl =>
    if c = '"' then some ([], tl)
    else (takeStr tl).map (fun p => (c :: p.1, p.2))

mutual

/-- Fuel-indexed recursive-descent JSON value parser modelling `JSON.parse`
over the fragment described in the file header. -/
def parseJ : Nat → List Char → Option (JValue × List Char)
  | 0, _ => none
  | fuel + 1, cs =>
    match cs with
    | [] => none
    | c :: tl =>
      if c = 'n' then
        match tl with
        | 'u' :: 'l' :: 'l' :: r => some (.null, r)
        | _ => none
      else if c = 't' then
        match tl with
        | 'r' :: 'u' :: 'e' :: r => some (.bool true, r)
        | _ => none
      else if c = 'f' then
        match tl with
        | 'a' :: 'l' :: 's' :: 'e' :: r => some (.bool false, r)
        | _ => none
      else if c = '"' then
        (takeStr tl).map (fun p => (.str (String.mk p.1), p.2))
      else if c = '[' then
        match tl with
        | ']' :: r => some (.arr [], r)
        | _ => (parseElems fuel tl).map (fun p => (.arr p.1, p.2))
      else if c = lbrace then
        match tl with
        | [] => none
        | d :: tl2 =>
          if d = rbrace then some (.obj [], tl2)
          else (parseFields fuel (d :: tl2)).map (fun p => (.obj p.1, p.2))
      else
        (parseNum (c :: tl)).map (fun p => (.num (String.mk p.1), p.2))

/-- Parse the elements of a non-empty JSON array up to the closing bracket. -/
def parseElems : Nat → List Char → Option (List JValue × List Char)
  | 0, _ => none
  | fuel + 1, cs =>
    match parseJ fuel cs with
    | none => none
    | some (v, rest) =>
      match rest with
      | [] => none
      | d :: tl =>
        if d = ',' then (parseElems fuel tl).map (fun p => (v :: p.1, p.2))
        else if d = ']' then some ([v], tl)
        else none

/-- Parse one `"key":value` pair of a JSON object. -/
def parseField1 : Nat → List Char → Option ((String × JValue) × List Char)
  | 0, _ => none
  | fuel + 1, cs =>
    match cs with
    | '"' :: tl =>
      match takeStr tl with
      | none => none
      | some (k, rest) =>
        match rest with
        | ':' :: tl2 => (parseJ fuel tl2).map (fun p => ((String.mk k, p.1), p.2))
        | _ => none
    | _ => none

/-- Parse the fields of a non-empty JSON object up to the closing brace. -/
def parseFields : Nat → List Char → Option (List (String × JValue) × List Char)
  | 0, _ => none
  | fuel + 1, cs =>
    match parseField1 fuel cs with
    | none => none
    | some (kv, rest) =>
      match rest with
      | [] => none
      | d :: tl =>
        if d = ',' then (parseFields fuel tl).map (fun p => (kv :: p.1, p.2))
        else if d = rbrace then some ([kv], tl)
        else none

end

/-- Model of `JSON.parse`: parse one JSON value consuming the whole input. -/
def jsonParse (s : String) : Option JValue :=
  match parseJ (s.data.length + 1) s.data with
  | some (v, []) => some v
  | _ => none

/-- Strict conversion of a parsed JSON object back into a `FrameRecord`:
requires exactly the seven keys the serializer writes, in order. -/
def recOfJsonStrict : JValue → Option FrameRecord
  | .obj [("frame", .num lx), ("left", .bool l), ("right", .bool r),
          ("up", .bool u), ("down", .bool d), ("action", .bool a),
          ("cancel", .bool c)] =>
      some ⟨digitsVal lx.data, l, r, u, d, a, c⟩
  | _ => none

/-- Strict conversion of a list of parsed JSON values into frame records. -/
def recsOfJson : List JValue → Option (List FrameRecord)
  | [] => some []
  | v :: tl =>
    match recOfJsonStrict v with
    | some r => (recsOfJson tl).map (fun l => r :: l)
    | none => none

/-- Decode serialized text into a frame sequence: JSON parse, then require an
array of well-formed frame records. -/
def decodeSeq (s : String) : Option (List FrameRecord) :=
  match jsonParse s with
  | some (.arr es) => recsOfJson es
  | _ => none

/-- JS truthiness of a parsed JSON value (over the modelled fragment: a number
is truthy iff its lexeme has a nonzero digit). -/
def jTruthy : JValue → Bool
  | .null => false
  | .bool b => b
  | .num lx => lx.data.any (fun c => isDigitCh c && !(c = '0'))
  | .str s => !(s = "")
  | .arr _ => true
  | .obj _ => true

/-- Property lookup on a parsed JSON object: last binding wins, as
`JSON.parse` keeps the last duplicate key. -/
def jLookup (fields : List (String × JValue)) (k : String) : Option JValue :=
  (fields.reverse.find? (fun p => p.1 == k)).map (fun p => p.2)

/-- Informational frame index read off an arbitrary parsed value (playback
never reads it). -/
def frameOfJson : Option JValue → Nat
  | some (.num lx) => digitsVal (lx.data.filter isDigitCh)
  | _ => 0

/-- Truthiness of an optional property, as `if (state.left)` reads it. -/
def flagOfJson : Option JValue → Bool
  | some j => jTruthy j
  | none => false

/-- Lenient view of an arbitrary parsed JSON value as a frame record: exactly
the properties playback's `setInputState` would observe by truthiness (a
missing property or a non-object element reads as all-false). -/
def recOfJsonLoose : JValue → FrameRecord
  | .obj fs =>
      ⟨frameOfJson (jLookup fs "frame"), flagOfJson (jLookup fs "left"),
       flagOfJson (jLookup fs "right"), flagOfJson (jLookup fs "up"),
       flagOfJson (jLookup fs "down"), flagOfJson (jLookup fs "action"),
       flagOfJson (jLookup fs "cancel")⟩
  | _ => ⟨0, false, false, false, false, false, false⟩

/-- Engine session state: the stored sequence `_recording`, the two mode
flags, the playback cursor, the recorder's frame counter, and the host
keyboard handler's pressed-key map `Ob` (direct-state variant). -/
structure Session where
  recording : List FrameRecord
  isRecording : Bool
  isPlaying : Bool
  playbackIndex : Nat
  frameCount : Nat
  keys : Nat → Bool

/-- A fresh session: empty recording, idle, no key pressed. -/
def sessionInit : Session :=
  ⟨[], false, false, 0, 0, fun _ => false⟩

/-- Direction-to-key-codes table, the host's live `Ea` mapping documented at
`part_000` line 148. -/
def keyMappings : Nat → List Nat
  | 0 => [37, 65]
  | 1 => [39, 68]
  | 2 => [38, 87]
  | 3 => [40, 83]
  | 4 => [32, 13]
  | 5 => [8, 49, 46]
  | _ => []

/-- Hardcoded single-key fallback table of `part_000` `pressDirection`
(lines 164-171), used when the live mapping is empty for a slot. -/
def fallbackKey : Nat → Option Nat
  | 0 => some 37
  | 1 => some 39
  | 2 => some 38
  | 3 => some 40
  | 4 => some 32
  | 5 => some 8
  | _ => none

/-- `pressKey`: set one key in the pressed-key map (`part_000` lines 110-116). -/
def pressKey (k : Nat) (st : Session) : Session :=
  {st with keys := fun k2 => if k2 = k then true else st.keys k2}

/-- `releaseKey`: clear one key in the pressed-key map. -/
def releaseKey (k : Nat) (st : Session) : Session :=
  {st with keys := fun k2 => if k2 = k then false else st.keys k2}

/-- `releaseAllKeys`: clear every key (`part_000` lines 133-141; iterating the
keys of the JS object and setting each to false leaves the map extensionally
all-false). -/
def releaseAllKeys (st : Session) : Session :=
  {st with keys := fun _ => false}

/-- `pressDirection` (`part_000` lines 152-176): press the first key the live
mapping assigns to the slot, falling back to the hardcoded table. -/
def pressDirection (d : Nat) (st : Session) : Session :=
  match keyMappings d with
  | k :: _ => pressKey k st
  | [] =>
    match fallbackKey d with
    | some k => pressKey k st
    | none => st

/-- `setInputState` (`part_000` lines 350-359): release everything, then press
each flagged direction; `action()` there presses key 13 directly
(`part_000` line 236). -/
def setInputState (v : InputVector) (st : Session) : Session :=
  let s0 := releaseAllKeys st
  let s1 := if v.left then pressDirection 0 s0 else s0
  let s2 := if v.right then pressDirection 1 s1 else s1
  let s3 := if v.up then pressDirection 2 s2 else s2
  let s4 := if v.down then pressDirection 3 s3 else s3
  let s5 := if v.action then pressKey 13 s4 else s4
  if v.cancel then pressDirection 5 s5 else s5

/-- Is some key of the slot's mapping pressed: the host-observable state of
one direction slot. -/
def dirAny (d : Nat) (st : Session) : Bool :=
  (keyMappings d).any st.keys

/-- The host-observable input vector derived from the pressed-key map. -/
def observedVector (st : Session) : InputVector :=
  ⟨dirAny 0 st, dirAny 1 st, dirAny 2 st, dirAny 3 st, dirAny 4 st, dirAny 5 st⟩

/-- The frame record `recordFrame` pushes for counter value `c` and observed
vector `v` (`src/tas.js` lines 290-298). -/
def recOf (c : Nat) (v : InputVector) : FrameRecord :=
  ⟨c, v.left, v.right, v.up, v.down, v.action, v.cancel⟩

/-- The input vector carried by a frame record. -/
def vecOf (r : FrameRecord) : InputVector :=
  ⟨r.left, r.right, r.up, r.down, r.action, r.cancel⟩

/-- `startRecording` (`src/tas.js` lines 264-270): reset the recording and the
frame counter, raise the recording flag.  (Tick-hook installation is an
environment effect, not session data.) -/
def startRecording (st : Session) : Session :=
  {st with recording := [], isRecording := true, frameCount := 0}

/-- `stopRecording` (`src/tas.js` lines 276-280): lower the recording flag and
return a copy of the recording. -/
def stopRecording (st : Session) : List FrameRecord × Session :=
  (st.recording, {st with isRecording := false})

/-- `recordFrame` (`src/tas.js` lines 285-301) with the host bound: append the
observed vector under the current frame counter, then advance the counter. -/
def recordFrame (v : InputVector) (st : Session) : Session :=
  if st.isRecording then
    {st with recording := st.recording ++ [recOf st.frameCount v],
             frameCount := st.frameCount + 1}
  else st

/-- `stopPlayback` (`src/tas.js` lines 336-341): lower the playing flag, reset
the cursor, release all keys. -/
def stopPlayback (st : Session) : Session :=
  releaseAllKeys {st with isPlaying := false, playbackIndex := 0}

/-- `playbackFrame` (`src/tas.js` lines 346-358): no-op unless playing; stop
on exhaustion; otherwise apply the record at the cursor and advance. -/
def playbackFrame (st : Session) : Bool × Session :=
  if st.isPlaying then
    if st.recording.length ≤ st.playbackIndex then (false, stopPlayback st)
    else
      let r := st.recording.getD st.playbackIndex ⟨0, false, false, false, false, false, false⟩
      (true, {setInputState (vecOf r) st with playbackIndex := st.playbackIndex + 1})
  else (false, st)

/-- One observed playback tick: the state after invoking `playbackFrame`. -/
def playStep (st : Session) : Session := (playbackFrame st).2

/-- One hooked game tick (`src/tas.js` lines 251-255): recorder callback, then
player callback, observing vector `v`. -/
def hookedTick (v : InputVector) (st : Session) : Session :=
  playStep (recordFrame v st)

/-- The argument accepted by `startPlayback`: nothing, a serialized string, or
an already-structured sequence. -/
inductive PlayArg where
  | noArg
  | textArg (s : String)
  | seqArg (l : List FrameRecord)

/-- Intermediate classification of the resolved `sequence` local variable:
an array value, or some non-array JSON value. -/
inductive ResolvedVal where
  | arrVal (l : List FrameRecord)
  | otherVal

/-- Resolution phase of `startPlayback` (`src/tas.js` lines 308-318): default
to the stored recording, JSON-parse a string argument (`none` = parse error,
which aborts), and classify the result. -/
def resolveArg : PlayArg → Session → Option ResolvedVal
  | .noArg, st => some (.arrVal st.recording)
  | .seqArg l, _ => some (.arrVal l)
  | .textArg s, _ =>
    match jsonParse s with
    | none => none
    | some (.arr es) => some (.arrVal (es.map recOfJsonLoose))
    | some _ => some .otherVal

/-- `startPlayback` (`src/tas.js` lines 307-331, `part_000` lines 450-485):
replace the stored recording only by a non-empty array; warn and no-op if the
stored recording ends up empty; otherwise reset the cursor, raise the playing
flag and lower the recording flag. -/
def startPlayback (arg : PlayArg) (st : Session) : Session :=
  match resolveArg arg st with
  | none => st
  | some rv =>
    let st1 :=
      match rv with
      | .arrVal l => if 0 < l.length then {st with recording := l} else st
      | .otherVal => st
    if st1.recording.length = 0 then st1
    else {st1 with playbackIndex := 0, isPlaying := true, isRecording := false}

/-- The second `startPlayback` copy in `src/tas.js`, lines 805-815: rejects an
empty argument, stores the sequence, raises the playing flag — and never
lowers the recording flag. -/
def startPlaybackV2 (seqArg : List FrameRecord) (st : Session) : Session :=
  if seqArg.length = 0 then st
  else {st with recording := seqArg, playbackIndex := 0, isPlaying := true}

/-- `getRecording` (`src/tas.js` line 373): a copy of the stored recording. -/
def getRecording (st : Session) : List FrameRecord := st.recording

/-- `exportRecording` (`src/tas.js` lines 378-380): `JSON.stringify` of the
stored recording. -/
def exportRecording (st : Session) : String :=
  String.mk (encodeSeq st.recording)

/-- `importRecording`, string branch (`src/tas.js` lines 386-402, `part_000`
lines 552-574): `_recording = JSON.parse(data)` inside try/catch — the raw
parsed value is stored unvalidated and `true` returned; a parse error is
caught, `false` returned, the slot untouched.  The slot is modelled at the
`JValue` level because the source stores whatever the parse produced. -/
def importRecording (data : String) (slot : JValue) : Bool × JValue :=
  match jsonParse data with
  | some v => (true, v)
  | none => (false, slot)

/-- The sequence builder's state (`src/tas.js` lines 897-966): the one array
`seq` it allocates, and its own frame counter. -/
structure BuilderHeap where
  store : List FrameRecord
  currentFrame : Nat

/-- The record `hold` pushes for one frame: each cascaded `if` in the source
sets the flag whose constant matches `direction`. -/
def mkHoldRec (direction fr : Nat) : FrameRecord :=
  ⟨fr, direction == 0, direction == 1, direction == 2,
       direction == 3, direction == 4, direction == 5⟩

/-- The records `hold direction n` appends, frames numbered from `start`. -/
def holdRecords (direction start n : Nat) : List FrameRecord :=
  (List.range n).map (fun i => mkHoldRec direction (start + i))

/-- Builder `hold` (`src/tas.js` lines 905-923): append `n` one-flag records,
advancing the builder's counter. -/
def builderHold (direction n : Nat) (h : BuilderHeap) : BuilderHeap :=
  ⟨h.store ++ holdRecords direction h.currentFrame n, h.currentFrame + n⟩

/-- Builder `wait` (`src/tas.js` lines 928-937): append `n` all-false records. -/
def builderWait (n : Nat) (h : BuilderHeap) : BuilderHeap :=
  ⟨h.store ++ (List.range n).map
      (fun i => ⟨h.currentFrame + i, false, false, false, false, false, false⟩),
   h.currentFrame + n⟩

/-- `TAS.sequence()` allocates a fresh builder with an empty array. -/
def builderInit : BuilderHeap := ⟨[], 0⟩

/-- Builder `build` (`src/tas.js` lines 952-954) is `return seq;`: it returns
a reference to the builder's one live array (unlike `stopRecording`, which
returns `this._recording.slice()`).  The reference is modelled as the address
of that single allocation. -/
def builderBuild (_h : BuilderHeap) : Nat := 0

/-- Dereference an array address in a builder heap: address 0 is the
builder's live array. -/
def readArray (_addr : Nat) (h : BuilderHeap) : List FrameRecord := h.store

/-- The key/value pairs of the object literal `recordFrame` pushes in
`src/tas.js` (lines 290-298): the frame index and the six flags. -/
def recordFieldsV1 (n : Nat) (v : InputVector) : List (String × JValue) :=
  [("frame", .num (String.mk (natLex n))),
   ("left", .bool v.left), ("right", .bool v.right),
   ("up", .bool v.up), ("down", .bool v.down),
   ("action", .bool v.action), ("cancel", .bool v.cancel)]

/-- The key/value pairs of the object literal `recordFrame` pushes in
`part_000` (lines 429-441): the same seven entries followed by the derived
`hasInput` flag. -/
def recordFieldsP0 (n : Nat) (v : InputVector) : List (String × JValue) :=
  recordFieldsV1 n v
    ++ [("hasInput", .bool (v.left || v.right || v.up || v.down || v.action || v.cancel))]

/-- The canonical key list of a serialized frame record. -/
def fieldNames : List String :=
  ["frame", "left", "right", "up", "down", "action", "cancel"]

/-- The records produced by `N` observed recording ticks starting at counter
`c`: one per tick, consecutively numbered. -/
def enumRecords (c : Nat) : List InputVector → List FrameRecord
  | [] => []
  | v :: tl => recOf c v :: enumRecords (c + 1) tl

/-- A one-frame all-false record, used in concrete scenarios. -/
def rec0 : FrameRecord := ⟨0, false, false, false, false, false, false⟩

/-! ### Helper lemmas about the session state machine -/

theorem pressKey_recording (k : Nat) (st : Session) :
    (pressKey k st).recording = st.recording := rfl

theorem pressKey_isRecording (k : Nat) (st : Session) :
    (pressKey k st).isRecording = st.isRecording := rfl

theorem pressKey_isPlaying (k : Nat) (st : Session) :
    (pressKey k st).isPlaying = st.isPlaying := rfl

theorem pressKey_playbackIndex (k : Nat) (st : Session) :
    (pressKey k st).playbackIndex = st.playbackIndex := rfl

theorem pressKey_frameCount (k : Nat) (st : Session) :
    (pressKey k st).frameCount = st.frameCount := rfl

theorem releaseAllKeys_recording (st : Session) :
    (releaseAllKeys st).recording = st.recording := rfl

theorem releaseAllKeys_isRecording (st : Session) :
    (releaseAllKeys st).isRecording = st.isRecording := rfl

theorem releaseAllKeys_isPlaying (st : Session) :
    (releaseAllKeys st).isPlaying = st.isPlaying := rfl

theorem releaseAllKeys_playbackIndex (st : Session) :
    (releaseAllKeys st).playbackIndex = st.playbackIndex := rfl

theorem releaseAllKeys_frameCount (st : Session) :
    (releaseAllKeys st).frameCount = st.frameCount := rfl

theorem pressDirection_recording (d : Nat) (st : Session) :
    (pressDirection d st).recording = st.recording := by
  unfold pressDirection
  split
  · rfl
  · split <;> rfl

theorem pressDirection_isRecording (d : Nat) (st : Session) :
    (pressDirection d st).isRecording = st.isRecording := by
  unfold pressDirection
  split
  · rfl
  · split <;> rfl

theorem pressDirection_isPlaying (d : Nat) (st : Session) :
    (pressDirection d st).isPlaying = st.isPlaying := by
  unfold pressDirection
  split
  · rfl
  · split <;> rfl

theorem pressDirection_playbackIndex (d : Nat) (st : Session) :
    (pressDirection d st).playbackIndex = st.playbackIndex := by
  unfold pressDirection
  split
  · rfl
  · split <;> rfl

theorem pressDirection_frameCount (d : Nat) (st : Session) :
    (pressDirection d st).frameCount = st.frameCount := by
  unfold pressDirection
  split
  · rfl
  · split <;> rfl

theorem setInputState_fields (v : InputVector) (st : Session) :
    (setInputState v st).recording = st.recording ∧
    (setInputState v st).isRecording = st.isRecording ∧
    (setInputState v st).isPlaying = st.isPlaying ∧
    (setInputState v st).playbackIndex = st.playbackIndex ∧
    (setInputState v st).frameCount = st.frameCount := by
  refine ⟨?_, ?_, ?_, ?_, ?_⟩ <;>
    simp only [setInputState,
      apply_ite Session.recording, apply_ite Session.isRecording,
      apply_ite Session.isPlaying, apply_ite Session.playbackIndex,
      apply_ite Session.frameCount,
      pressKey_recording, pressKey_isRecording, pressKey_isPlaying,
      pressKey_playbackIndex, pressKey_frameCount,
      pressDirection_recording, pressDirection_isRecording, pressDirection_isPlaying,
      pressDirection_playbackIndex, pressDirection_frameCount,
      releaseAllKeys_recording, releaseAllKeys_isRecording, releaseAllKeys_isPlaying,
      releaseAllKeys_playbackIndex, releaseAllKeys_frameCount,
      ite_self]

theorem playStep_mid (st : Session) (h1 : st.isPlaying = true)
    (h2 : st.playbackIndex < st.recording.length) :
    (playStep st).isPlaying = true ∧
    (playStep st).playbackIndex = st.playbackIndex + 1 ∧
    (playStep st).recording = st.recording ∧
    (playStep st).isRecording = st.isRecording := by
  have hn : ¬ st.recording.length ≤ st.playbackIndex := Nat.not_le.mpr h2
  obtain ⟨f1, f2, f3, f4, f5⟩ :=
    setInputState_fields
      (vecOf (st.recording.getD st.playbackIndex ⟨0, false, false, false, false, false, false⟩)) st
  have hstep : playStep st =
      {setInputState
          (vecOf (st.recording.getD st.playbackIndex ⟨0, false, false, false, false, false, false⟩)) st
        with playbackIndex := st.playbackIndex + 1} := by
    simp only [playStep, playbackFrame, h1, if_true, hn, if_false]
  rw [hstep]
  refine ⟨?_, rfl, ?_, ?_⟩
  · show (setInputState _ st).isPlaying = true
    rw [f3]; exact h1
  · exact f1
  · exact f2

theorem playStep_exhaust (st : Session) (h1 : st.isPlaying = true)
    (h2 : st.recording.length ≤ st.playbackIndex) :
    playStep st = stopPlayback st := by
  simp only [playStep, playbackFrame, h1, if_true, h2, if_true]

theorem playStep_iterate (m : Nat) : ∀ (st : Session), st.isPlaying = true →
    st.playbackIndex + m ≤ st.recording.length →
    (playStep^[m] st).isPlaying = true ∧
    (playStep^[m] st).playbackIndex = st.playbackIndex + m ∧
    (playStep^[m] st).recording = st.recording := by
  induction m with
  | zero =>
    intro st h1 _
    exact ⟨h1, by show st.playbackIndex = st.playbackIndex + 0; omega, rfl⟩
  | succ n ih =>
    intro st h1 h2
    rw [Function.iterate_succ_apply]
    obtain ⟨p1, p2, p3, _⟩ := playStep_mid st h1 (by omega)
    obtain ⟨q1, q2, q3⟩ := ih (playStep st) p1 (by rw [p2, p3]; omega)
    refine ⟨q1, by rw [q2, p2]; omega, by rw [q3, p3]⟩

theorem startPlayback_seq_nonempty (S : List FrameRecord) (st : Session) (hne : S ≠ []) :
    startPlayback (.seqArg S) st =
      {st with recording := S, playbackIndex := 0, isPlaying := true, isRecording := false} := by
  have hpos : 0 < S.length := List.length_pos.mpr hne
  have hz : ¬ S.length = 0 := by omega
  simp only [startPlayback, resolveArg, hpos, if_true, hz, if_false]

theorem hookedTick_keeps_recording_off (v : InputVector) (st : Session)
    (h : st.isRecording = false) : (hookedTick v st).isRecording = false := by
  have hrf : recordFrame v st = st := by simp [recordFrame, h]
  rw [hookedTick, hrf]
  by_cases hp : st.isPlaying = true
  · by_cases he : st.recording.length ≤ st.playbackIndex
    · rw [playStep_exhaust st hp he]
      exact h
    · obtain ⟨-, -, -, hr⟩ := playStep_mid st hp (by omega)
      rw [hr]; exact h
  · have hp' : st.isPlaying = false := by
      cases hps : st.isPlaying
      · rfl
      · exact absurd hps hp
    simp only [playStep, playbackFrame, hp', Bool.false_eq_true, if_false]
    exact h

theorem hookedTicks_keep_recording_off (vs : List InputVector) : ∀ (st : Session),
    st.isRecording = false →
    (vs.foldl (fun s v => hookedTick v s) st).isRecording = false := by
  induction vs with
  | nil => intro st h; simpa using h
  | cons v tl ih =>
    intro st h
    rw [List.foldl_cons]
    exact ih _ (hookedTick_keeps_recording_off v st h)

theorem recordFrame_run (vs : List InputVector) : ∀ (st : Session), st.isRecording = true →
    (vs.foldl (fun s v => recordFrame v s) st).recording
      = st.recording ++ enumRecords st.frameCount vs ∧
    (vs.foldl (fun s v => recordFrame v s) st).frameCount = st.frameCount + vs.length := by
  induction vs with
  | nil =>
    intro st _
    simp [enumRecords]
  | cons v tl ih =>
    intro st h
    rw [List.foldl_cons]
    have hrf : recordFrame v st =
        {st with recording := st.recording ++ [recOf st.frameCount v],
                 frameCount := st.frameCount + 1} := by
      simp [recordFrame, h]
    rw [hrf]
    obtain ⟨a, b⟩ := ih {st with recording := st.recording ++ [recOf st.frameCount v],
                                 frameCount := st.frameCount + 1} h
    constructor
    · rw [a]
      simp [enumRecords, List.append_assoc]
    · rw [b]
      simp [List.length_cons]
      omega

theorem enumRecords_length (vs : List InputVector) : ∀ (c : Nat),
    (enumRecords c vs).length = vs.length := by
  induction vs with
  | nil => intro c; rfl
  | cons v tl ih => intro c; simp [enumRecords, ih]

theorem enumRecords_frames (vs : List InputVector) : ∀ (c : Nat),
    (enumRecords c vs).map FrameRecord.frame = List.range' c vs.length := by
  induction vs with
  | nil => intro c; rfl
  | cons v tl ih =>
    intro c
    simp only [enumRecords, List.map_cons, ih, List.length_cons, List.range'_succ]
    rfl

/-! ### Claim theorems -/

/-- C1 counterexample: with S = [rec0] (length 1), after `startPlayback(S)`
and exactly `length S` = 1 observed ticks, the session is still in mode
Playing with cursor 1 — not Idle as the claim states. -/
theorem c1_counterexample :
    (playStep^[1] (startPlayback (.seqArg [rec0]) sessionInit)).isPlaying = true ∧
    (playStep^[1] (startPlayback (.seqArg [rec0]) sessionInit)).playbackIndex = 1 := by
  exact ⟨rfl, rfl⟩

/-- C1 (amended): after `startPlayback(S)` for non-empty S, observing
`length S - 1` ticks leaves mode Playing with cursor `length S - 1`;
observing `length S` ticks still leaves mode Playing, with cursor `length S`;
it takes `length S + 1` ticks to reach Idle with every key released and the
cursor reset to 0. -/
theorem c1_playback_exhaustion_amended (S : List FrameRecord) (st : Session) (k : Nat)
    (hne : S ≠ []) :
    (playStep^[S.length - 1] (startPlayback (.seqArg S) st)).isPlaying = true ∧
    (playStep^[S.length - 1] (startPlayback (.seqArg S) st)).playbackIndex = S.length - 1 ∧
    (playStep^[S.length] (startPlayback (.seqArg S) st)).isPlaying = true ∧
    (playStep^[S.length] (startPlayback (.seqArg S) st)).playbackIndex = S.length ∧
    (playStep^[S.length + 1] (startPlayback (.seqArg S) st)).isPlaying = false ∧
    (playStep^[S.length + 1] (startPlayback (.seqArg S) st)).playbackIndex = 0 ∧
    (playStep^[S.length + 1] (startPlayback (.seqArg S) st)).keys k = false := by
  rw [startPlayback_seq_nonempty S st hne]
  set st1 : Session :=
    {st with recording := S, playbackIndex := 0, isPlaying := true, isRecording := false}
    with hst1
  have hplay : st1.isPlaying = true := rfl
  have hidx : st1.playbackIndex = 0 := rfl
  have hrec : st1.recording = S := rfl
  obtain ⟨a1, a2, a3⟩ := playStep_iterate (S.length - 1) st1 hplay
    (by rw [hidx, hrec]; omega)
  obtain ⟨b1, b2, b3⟩ := playStep_iterate S.length st1 hplay
    (by rw [hidx, hrec]; omega)
  have hlast : playStep^[S.length + 1] st1 = stopPlayback (playStep^[S.length] st1) := by
    rw [Function.iterate_succ_apply']
    exact playStep_exhaust _ b1 (by rw [b2, b3, hidx, hrec]; omega)
  refine ⟨a1, by rw [a2, hidx]; omega, b1, by rw [b2, hidx]; omega, ?_, ?_, ?_⟩
  · rw [hlast]; rfl
  · rw [hlast]; rfl
  · rw [hlast]; rfl

/-- C1 witness: the amended statement evaluated at S = [rec0], a fresh
session and key 37. -/
theorem c1_witness :
    (playStep^[0] (startPlayback (.seqArg [rec0]) sessionInit)).isPlaying = true ∧
    (playStep^[0] (startPlayback (.seqArg [rec0]) sessionInit)).playbackIndex = 0 ∧
    (playStep^[1] (startPlayback (.seqArg [rec0]) sessionInit)).isPlaying = true ∧
    (playStep^[1] (startPlayback (.seqArg [rec0]) sessionInit)).playbackIndex = 1 ∧
    (playStep^[2] (startPlayback (.seqArg [rec0]) sessionInit)).isPlaying = false ∧
    (playStep^[2] (startPlayback (.seqArg [rec0]) sessionInit)).playbackIndex = 0 ∧
    (playStep^[2] (startPlayback (.seqArg [rec0]) sessionInit)).keys 37 = false :=
  c1_playback_exhaustion_amended [rec0] sessionInit 37 (by decide)

/-- C2: the second `startPlayback` copy in `src/tas.js` (lines 805-815),
invoked with a valid one-record sequence while the recording flag is set,
leaves BOTH the recording flag and the playing flag true: it never lowers
`_isRecording`, contradicting the mutual-exclusion contract that the other
two engine copies implement by setting `_isRecording = false`. -/
theorem c2_both_flags_set :
    (startPlaybackV2 [rec0] {sessionInit with isRecording := true}).isRecording = true ∧
    (startPlaybackV2 [rec0] {sessionInit with isRecording := true}).isPlaying = true :=
  ⟨rfl, rfl⟩

/-- C3: after `startRecording()` and exactly N observed recording ticks (one
`recordFrame` per tick, each observing some input vector), `stopRecording()`
returns a sequence of length exactly N whose frame fields are 0,...,N-1 in
order. -/
theorem c3_record_count (vs : List InputVector) (st : Session) :
    (stopRecording (vs.foldl (fun s v => recordFrame v s) (startRecording st))).1.length
      = vs.length ∧
    (stopRecording (vs.foldl (fun s v => recordFrame v s) (startRecording st))).1.map
        FrameRecord.frame
      = List.range vs.length := by
  obtain ⟨a, -⟩ := recordFrame_run vs (startRecording st) rfl
  have hrec : (vs.foldl (fun s v => recordFrame v s) (startRecording st)).recording
      = enumRecords 0 vs := by
    rw [a]; rfl
  constructor
  · show (vs.foldl (fun s v => recordFrame v s) (startRecording st)).recording.length = _
    rw [hrec, enumRecords_length]
  · show (vs.foldl (fun s v => recordFrame v s) (startRecording st)).recording.map
        FrameRecord.frame = _
    rw [hrec, enumRecords_frames, List.range_eq_range']

/-- C5 counterexample: in an Idle session holding a previously stored
non-empty recording, `startPlayback([])` does NOT leave the state unchanged:
it starts playback of the stored recording (mode becomes Playing). -/
theorem c5_counterexample :
    (startPlayback (.seqArg []) {sessionInit with recording := [rec0]}).isPlaying = true :=
  rfl

/-- C5 (amended): `startPlayback([])` leaves the session unchanged (the
EmptySequence condition) only when the stored recording is also empty; when a
non-empty recording is stored, the empty argument does not replace it and
playback of the stored recording starts (mode Playing, cursor 0, recording
flag lowered, stored sequence unchanged). -/
theorem c5_empty_playback_amended (st : Session) :
    (st.recording = [] → startPlayback (.seqArg []) st = st) ∧
    (st.recording ≠ [] →
      (startPlayback (.seqArg []) st).isPlaying = true ∧
      (startPlayback (.seqArg []) st).recording = st.recording ∧
      (startPlayback (.seqArg []) st).playbackIndex = 0 ∧
      (startPlayback (.seqArg []) st).isRecording = false) := by
  constructor
  · intro h
    have hz : st.recording.length = 0 := by rw [h]; rfl
    simp [startPlayback, resolveArg, hz]
  · intro h
    have hz : ¬ st.recording.length = 0 := by
      have := List.length_pos.mpr h
      omega
    have hres : startPlayback (.seqArg []) st =
        {st with playbackIndex := 0, isPlaying := true, isRecording := false} := by
      simp [startPlayback, resolveArg, hz]
    rw [hres]
    exact ⟨rfl, rfl, rfl, rfl⟩

/-- C5 witness: the amended statement evaluated at a fresh session (empty
stored recording, unchanged) and at a session storing one record (playback
starts). -/
theorem c5_witness :
    startPlayback (.seqArg []) sessionInit = sessionInit ∧
    (startPlayback (.seqArg []) {sessionInit with recording := [rec0]}).recording = [rec0] :=
  ⟨(c5_empty_playback_amended sessionInit).1 rfl,
   ((c5_empty_playback_amended {sessionInit with recording := [rec0]}).2 (by decide)).2.1⟩

set_option maxHeartbeats 1600000 in
/-- C7: applying an input vector via `setInputState` leaves the host's
observable direction state equal to exactly the six flags of the vector
(asserted flags observed pressed, unasserted flags released, no residual
state), and applying the same vector twice in a row yields the same host
state as applying it once. -/
theorem c7_apply_vector (v : InputVector) (st : Session) :
    observedVector (setInputState v st) = v ∧
    setInputState v (setInputState v st) = setInputState v st := by
  obtain ⟨l, r, u, d, a, c⟩ := v
  constructor
  · cases l <;> cases r <;> cases u <;> cases d <;> cases a <;> cases c <;>
      (unfold observedVector dirAny setInputState pressDirection pressKey
        releaseAllKeys keyMappings; simp)
  · cases l <;> cases r <;> cases u <;> cases d <;> cases a <;> cases c <;>
      (unfold setInputState pressDirection pressKey releaseAllKeys keyMappings; simp)

/-- C8 counterexample: the sequence previously returned by `build()` is NOT
finalized — after one further `wait(1)` call on the builder, observing the
returned array yields different contents (its length grew from 0 to 1),
because `build()` returns the builder's live array. -/
theorem c8_counterexample :
    ¬ (readArray (builderBuild builderInit) (builderWait 1 builderInit) =
       readArray (builderBuild builderInit) builderInit) := by
  decide

/-- C8 (amended): `build()` returns a reference to the builder's single live
array, so a `hold` or `wait` call made after `build()` appends its frames to
the previously returned sequence: the records present at build time are
preserved as a prefix, but the observed length grows by the number of frames
appended. -/
theorem c8_builder_live_amended (h : BuilderHeap) (direction n : Nat) :
    readArray (builderBuild h) (builderHold direction n h) =
      readArray (builderBuild h) h ++ holdRecords direction h.currentFrame n ∧
    (readArray (builderBuild h) (builderWait n h)).length =
      (readArray (builderBuild h) h).length + n := by
  refine ⟨rfl, ?_⟩
  simp [readArray, builderWait]

/-- C9 counterexample: the record `part_000`'s `recordFrame` pushes for an
all-false observed vector carries an eighth key `hasInput` in addition to the
six input flags and the frame index, so not every produced record has exactly
the six input fields. -/
theorem c9_counterexample :
    ¬ ((recordFieldsP0 0 ⟨false, false, false, false, false, false⟩).map Prod.fst
        = fieldNames) := by
  decide

/-- C9 (amended): records produced by the `src/tas.js` `recordFrame` carry
exactly the keys frame,left,right,up,down,action,cancel; records produced by
the `part_000` variant carry those seven plus a derived `hasInput` key (the
disjunction of the six flags). -/
theorem c9_record_fields_amended (n : Nat) (v : InputVector) :
    (recordFieldsV1 n v).map Prod.fst = fieldNames ∧
    (recordFieldsP0 n v).map Prod.fst = fieldNames ++ ["hasInput"] := by
  constructor <;> simp [recordFieldsV1, recordFieldsP0, fieldNames]

/-- C10: a successful `startPlayback(S)` for non-empty S replaces the stored
sequence wholesale with S, so `getRecording()` then returns S and
`exportRecording()` returns the serialization of S. -/
theorem c10_replace_sequence (S : List FrameRecord) (st : Session) (hne : S ≠ []) :
    (startPlayback (.seqArg S) st).recording = S ∧
    getRecording (startPlayback (.seqArg S) st) = S ∧
    exportRecording (startPlayback (.seqArg S) st) = String.mk (encodeSeq S) := by
  rw [startPlayback_seq_nonempty S st hne]
  exact ⟨rfl, rfl, rfl⟩

/-- C10 witness: the statement evaluated at S = [rec0] and a fresh session. -/
theorem c10_witness :
    (startPlayback (.seqArg [rec0]) sessionInit).recording = [rec0] ∧
    getRecording (startPlayback (.seqArg [rec0]) sessionInit) = [rec0] ∧
    exportRecording (startPlayback (.seqArg [rec0]) sessionInit) = String.mk (encodeSeq [rec0]) :=
  c10_replace_sequence [rec0] sessionInit (by decide)

/-! ### Codec helper lemmas: decimal digits -/

theorem digitCh_isDigit (k : Nat) : isDigitCh (digitCh k) = true := by
  rcases k with _|_|_|_|_|_|_|_|_|k <;> rfl

theorem dVal_digitCh (k : Nat) (h : k < 10) : dVal (digitCh k) = k := by
  interval_cases k <;> rfl

theorem natLex_ne_nil (n : Nat) : natLex n ≠ [] := by
  rw [natLex]
  split
  · simp
  · simp

theorem natLex_digits (n : Nat) : ∀ c ∈ natLex n, isDigitCh c = true := by
  induction n using Nat.strong_induction_on with
  | _ n ih =>
    intro c hc
    rw [natLex] at hc
    split at hc
    · simp at hc
      rw [hc]
      exact digitCh_isDigit n
    · rename_i h10
      simp at hc
      rcases hc with hc | hc
      · exact ih (n / 10) (Nat.div_lt_self (by omega) (by omega)) c hc
      · rw [hc]
        exact digitCh_isDigit (n % 10)

theorem digitsVal_natLex (n : Nat) : digitsVal (natLex n) = n := by
  induction n using Nat.strong_induction_on with
  | _ n ih =>
    rw [natLex]
    split
    · rename_i h10
      simp [digitsVal, dVal_digitCh n h10]
    · rename_i h10
      have ih1 := ih (n / 10) (Nat.div_lt_self (by omega) (by omega))
      have hm : dVal (digitCh (n % 10)) = n % 10 :=
        dVal_digitCh _ (Nat.mod_lt _ (by omega))
      simp only [digitsVal, List.foldl_append, List.foldl_cons, List.foldl_nil] at ih1 ⊢
      rw [ih1, hm]
      omega

/-! ### Codec helper lemmas: the number and string scanners -/

theorem takeDigits_append (ds : List Char) (rest : List Char)
    (hds : ∀ c ∈ ds, isDigitCh c = true)
    (hr : match rest with | [] => True | c :: _ => isDigitCh c = false) :
    takeDigits (ds ++ rest) = (ds, rest) := by
  induction ds with
  | nil =>
    cases rest with
    | nil => rfl
    | cons c tl =>
      have hc : isDigitCh c = false := hr
      simp [takeDigits, hc]
  | cons d tl ih =>
    have hd : isDigitCh d = true := hds d (by simp)
    have ih' := ih (fun c hc => hds c (by simp [hc]))
    simp [takeDigits, hd, ih']

theorem isDigitCh_ne (c : Char) (h : isDigitCh c = true) :
    ¬ c = 'n' ∧ ¬ c = 't' ∧ ¬ c = 'f' ∧ ¬ c = '"' ∧ ¬ c = '[' ∧
    ¬ c = lbrace ∧ ¬ c = '-' := by
  refine ⟨?_, ?_, ?_, ?_, ?_, ?_, ?_⟩ <;>
    (intro hc; rw [hc] at h; revert h; decide)

theorem parseNum_natLex (n : Nat) (c : Char) (tl : List Char)
    (h1 : isDigitCh c = false) (h2 : ¬ c = '.') :
    parseNum (natLex n ++ c :: tl) = some (natLex n, c :: tl) := by
  obtain ⟨d, ds, hds⟩ := List.exists_cons_of_ne_nil (natLex_ne_nil n)
  have hd : isDigitCh d = true := natLex_digits n d (by rw [hds]; simp)
  have hdm : ¬ d = '-' := (isDigitCh_ne d hd).2.2.2.2.2.2
  have htd : takeDigits (natLex n ++ c :: tl) = (natLex n, c :: tl) :=
    takeDigits_append (natLex n) (c :: tl) (natLex_digits n) h1
  rw [hds] at htd ⊢
  simp only [List.cons_append] at htd ⊢
  simp [parseNum, hdm, parseNumCore, htd, h2]

theorem takeStr_key (key : List Char) (hq : ∀ c ∈ key, ¬ c = '"') :
    ∀ rest, takeStr (key ++ '"' :: rest) = some (key, rest) := by
  induction key with
  | nil =>
    intro rest
    simp [takeStr]
  | cons c tl ih =>
    intro rest
    have hc : ¬ c = '"' := hq c (by simp)
    have ih' := ih (fun c' hc' => hq c' (by simp [hc'])) rest
    simp [takeStr, hc, ih']

/-! ### Codec helper lemmas: parsing serialized atoms, fields and records -/

theorem parseJ_bool (fuel : Nat) (b : Bool) (rest : List Char) :
    parseJ (fuel + 1) (encodeBool b ++ rest) = some (.bool b, rest) := by
  cases b <;> simp [parseJ, encodeBool]

theorem parseJ_num (fuel n : Nat) (c : Char) (tl : List Char)
    (h1 : isDigitCh c = false) (h2 : ¬ c = '.') :
    parseJ (fuel + 1) (natLex n ++ c :: tl)
      = some (.num (String.mk (natLex n)), c :: tl) := by
  obtain ⟨d, ds, hds⟩ := List.exists_cons_of_ne_nil (natLex_ne_nil n)
  have hd : isDigitCh d = true := natLex_digits n d (by rw [hds]; simp)
  obtain ⟨nn, nt, nf, nq, nb, nl, nm⟩ := isDigitCh_ne d hd
  have hpn := parseNum_natLex n c tl h1 h2
  rw [hds] at hpn ⊢
  simp only [List.cons_append] at hpn ⊢
  simp [parseJ, nn, nt, nf, nq, nb, nl, hpn]

theorem parseField1_val (fuel : Nat) (key : List Char) (hq : ∀ c ∈ key, ¬ c = '"')
    (v : JValue) (txt rest : List Char)
    (hv : parseJ fuel (txt ++ rest) = some (v, rest)) :
    parseField1 (fuel + 1) ('"' :: (key ++ '"' :: ':' :: (txt ++ rest)))
      = some ((String.mk key, v), rest) := by
  simp [parseField1, takeStr_key key hq, hv]

theorem parseFields_step (fuel : Nat) (cs tl : List Char) (kv : String × JValue)
    (h : parseField1 fuel cs = some (kv, ',' :: tl)) :
    parseFields (fuel + 1) cs = (parseFields fuel tl).map (fun p => (kv :: p.1, p.2)) := by
  simp [parseFields, h]

theorem parseFields_last (fuel : Nat) (cs tl : List Char) (kv : String × JValue)
    (h : parseField1 fuel cs = some (kv, rbrace :: tl)) :
    parseFields (fuel + 1) cs = some ([kv], tl) := by
  simp [parseFields, h, rbrace]

theorem parseFields_boolStep (k : Nat) (key : List Char) (hq : ∀ c ∈ key, ¬ c = '"')
    (b : Bool) (cont : List Char) :
    parseFields (k + 3) ('"' :: (key ++ '"' :: ':' :: (encodeBool b ++ ',' :: cont)))
      = (parseFields (k + 2) cont).map
          (fun p => ((String.mk key, JValue.bool b) :: p.1, p.2)) :=
  parseFields_step (k + 2) _ _ _
    (parseField1_val (k + 1) key hq (.bool b) (encodeBool b) (',' :: cont)
      (parseJ_bool k b (',' :: cont)))

theorem parseFields_boolLast (k : Nat) (key : List Char) (hq : ∀ c ∈ key, ¬ c = '"')
    (b : Bool) (tl : List Char) :
    parseFields (k + 3) ('"' :: (key ++ '"' :: ':' :: (encodeBool b ++ rbrace :: tl)))
      = some ([(String.mk key, JValue.bool b)], tl) :=
  parseFields_last (k + 2) _ _ _
    (parseField1_val (k + 1) key hq (.bool b) (encodeBool b) (rbrace :: tl)
      (parseJ_bool k b (rbrace :: tl)))

theorem parseFields_numStep (k n : Nat) (key : List Char) (hq : ∀ c ∈ key, ¬ c = '"')
    (cont : List Char) :
    parseFields (k + 3) ('"' :: (key ++ '"' :: ':' :: (natLex n ++ ',' :: cont)))
      = (parseFields (k + 2) cont).map
          (fun p => ((String.mk key, JValue.num (String.mk (natLex n))) :: p.1, p.2)) :=
  parseFields_step (k + 2) _ _ _
    (parseField1_val (k + 1) key hq (.num (String.mk (natLex n))) (natLex n) (',' :: cont)
      (parseJ_num k n ',' cont (by decide) (by decide)))

theorem parseJ_record (fuel : Nat) (r : FrameRecord) (rest : List Char) :
    parseJ (fuel + 10) (encodeRecord r ++ rest) = some (jsonOfRecord r, rest) := by
  obtain ⟨n, fl, fr, fu, fd, fa, fc⟩ := r
  have e1 : encodeRecord ⟨n, fl, fr, fu, fd, fa, fc⟩ ++ rest
      = lbrace :: '"' :: 'f' :: 'r' :: 'a' :: 'm' :: 'e' :: '"' :: ':' ::
        (natLex n ++ ',' :: '"' :: 'l' :: 'e' :: 'f' :: 't' :: '"' :: ':' ::
        (encodeBool fl ++ ',' :: '"' :: 'r' :: 'i' :: 'g' :: 'h' :: 't' :: '"' :: ':' ::
        (encodeBool fr ++ ',' :: '"' :: 'u' :: 'p' :: '"' :: ':' ::
        (encodeBool fu ++ ',' :: '"' :: 'd' :: 'o' :: 'w' :: 'n' :: '"' :: ':' ::
        (encodeBool fd ++ ',' :: '"' :: 'a' :: 'c' :: 't' :: 'i' :: 'o' :: 'n' :: '"' :: ':' ::
        (encodeBool fa ++ ',' :: '"' :: 'c' :: 'a' :: 'n' :: 'c' :: 'e' :: 'l' :: '"' :: ':' ::
        (encodeBool fc ++ rbrace :: rest))))))) := by
    simp [encodeRecord, List.cons_append, List.append_assoc]
  rw [e1]
  set cs7 : List Char :=
    '"' :: 'c' :: 'a' :: 'n' :: 'c' :: 'e' :: 'l' :: '"' :: ':' ::
      (encodeBool fc ++ rbrace :: rest) with hcs7
  set cs6 : List Char :=
    '"' :: 'a' :: 'c' :: 't' :: 'i' :: 'o' :: 'n' :: '"' :: ':' ::
      (encodeBool fa ++ ',' :: cs7) with hcs6
  set cs5 : List Char :=
    '"' :: 'd' :: 'o' :: 'w' :: 'n' :: '"' :: ':' :: (encodeBool fd ++ ',' :: cs6) with hcs5
  set cs4 : List Char :=
    '"' :: 'u' :: 'p' :: '"' :: ':' :: (encodeBool fu ++ ',' :: cs5) with hcs4
  set cs3 : List Char :=
    '"' :: 'r' :: 'i' :: 'g' :: 'h' :: 't' :: '"' :: ':' :: (encodeBool fr ++ ',' :: cs4) with hcs3
  set cs2 : List Char :=
    '"' :: 'l' :: 'e' :: 'f' :: 't' :: '"' :: ':' :: (encodeBool fl ++ ',' :: cs3) with hcs2
  have s0 : parseJ (fuel + 10)
        (lbrace :: '"' :: 'f' :: 'r' :: 'a' :: 'm' :: 'e' :: '"' :: ':' ::
          (natLex n ++ ',' :: cs2))
      = (parseFields (fuel + 9)
          ('"' :: 'f' :: 'r' :: 'a' :: 'm' :: 'e' :: '"' :: ':' ::
            (natLex n ++ ',' :: cs2))).map (fun p => (JValue.obj p.1, p.2)) := by
    simp [parseJ, lbrace, rbrace]
  have s1 : parseFields (fuel + 9)
        ('"' :: 'f' :: 'r' :: 'a' :: 'm' :: 'e' :: '"' :: ':' :: (natLex n ++ ',' :: cs2))
      = (parseFields (fuel + 8) cs2).map
          (fun p => (("frame", JValue.num (String.mk (natLex n))) :: p.1, p.2)) :=
    parseFields_numStep (fuel + 6) n ['f', 'r', 'a', 'm', 'e'] (by decide) cs2
  have s2 : parseFields (fuel + 8) cs2
      = (parseFields (fuel + 7) cs3).map
          (fun p => (("left", JValue.bool fl) :: p.1, p.2)) :=
    parseFields_boolStep (fuel + 5) ['l', 'e', 'f', 't'] (by decide) fl cs3
  have s3 : parseFields (fuel + 7) cs3
      = (parseFields (fuel + 6) cs4).map
          (fun p => (("right", JValue.bool fr) :: p.1, p.2)) :=
    parseFields_boolStep (fuel + 4) ['r', 'i', 'g', 'h', 't'] (by decide) fr cs4
  have s4 : parseFields (fuel + 6) cs4
      = (parseFields (fuel + 5) cs5).map
          (fun p => (("up", JValue.bool fu) :: p.1, p.2)) :=
    parseFields_boolStep (fuel + 3) ['u', 'p'] (by decide) fu cs5
  have s5 : parseFields (fuel + 5) cs5
      = (parseFields (fuel + 4) cs6).map
          (fun p => (("down", JValue.bool fd) :: p.1, p.2)) :=
    parseFields_boolStep (fuel + 2) ['d', 'o', 'w', 'n'] (by decide) fd cs6
  have s6 : parseFields (fuel + 4) cs6
      = (parseFields (fuel + 3) cs7).map
          (fun p => (("action", JValue.bool fa) :: p.1, p.2)) :=
    parseFields_boolStep (fuel + 1) ['a', 'c', 't', 'i', 'o', 'n'] (by decide) fa cs7
  have s7 : parseFields (fuel + 3) cs7
      = some ([("cancel", JValue.bool fc)], rest) :=
    parseFields_boolLast fuel ['c', 'a', 'n', 'c', 'e', 'l'] (by decide) fc rest
  rw [s0, s1, s2, s3, s4, s5, s6, s7]
  simp [jsonOfRecord]

/-! ### Codec helper lemmas: parsing serialized sequences -/

theorem parseElems_step (fuel : Nat) (cs tl : List Char) (v : JValue)
    (h : parseJ fuel cs = some (v, ',' :: tl)) :
    parseElems (fuel + 1) cs = (parseElems fuel tl).map (fun p => (v :: p.1, p.2)) := by
  simp [parseElems, h]

theorem parseElems_last (fuel : Nat) (cs tl : List Char) (v : JValue)
    (h : parseJ fuel cs = some (v, ']' :: tl)) :
    parseElems (fuel + 1) cs = some ([v], tl) := by
  simp [parseElems, h]

theorem parseElems_encTail (rs : List FrameRecord) :
    ∀ (fuel : Nat) (r : FrameRecord) (rest : List Char),
    parseElems (fuel + 11 * rs.length + 11) (encodeRecord r ++ (encTail rs ++ rest))
      = some ((r :: rs).map jsonOfRecord, rest) := by
  induction rs with
  | nil =>
    intro fuel r rest
    have e2 : encTail ([] : List FrameRecord) ++ rest = ']' :: rest := rfl
    have hz : fuel + 11 * ([] : List FrameRecord).length + 11 = fuel + 11 := by simp
    rw [e2, hz]
    have last : parseElems (fuel + 11) (encodeRecord r ++ ']' :: rest)
        = some ([jsonOfRecord r], rest) :=
      parseElems_last (fuel + 10) _ _ _ (parseJ_record fuel r (']' :: rest))
    rw [last]
    simp
  | cons r2 tl ih =>
    intro fuel r rest
    have harith : fuel + 11 * (r2 :: tl).length + 11
        = (fuel + 11 * tl.length + 11) + 11 := by
      simp [List.length_cons]
      ring
    rw [harith]
    have e2 : encTail (r2 :: tl) ++ rest
        = ',' :: (encodeRecord r2 ++ (encTail tl ++ rest)) := by
      simp [encTail, List.cons_append, List.append_assoc]
    rw [e2]
    have step : parseElems ((fuel + 11 * tl.length + 11) + 11)
          (encodeRecord r ++ ',' :: (encodeRecord r2 ++ (encTail tl ++ rest)))
        = (parseElems ((fuel + 11 * tl.length + 11) + 10)
            (encodeRecord r2 ++ (encTail tl ++ rest))).map
            (fun p => (jsonOfRecord r :: p.1, p.2)) :=
      parseElems_step ((fuel + 11 * tl.length + 11) + 10) _ _ _
        (parseJ_record (fuel + 11 * tl.length + 11) r _)
    rw [step]
    have hfu : (fuel + 11 * tl.length + 11) + 10 = (fuel + 10) + 11 * tl.length + 11 := by
      omega
    rw [hfu, ih (fuel + 10) r2 rest]
    simp

theorem parseJ_arr (fuel : Nat) (c : Char) (tl : List Char) (hc : ¬ c = ']') :
    parseJ (fuel + 1) ('[' :: c :: tl)
      = (parseElems fuel (c :: tl)).map (fun p => (JValue.arr p.1, p.2)) := by
  simp [parseJ, hc]

theorem encodeRecord_len (r : FrameRecord) : 10 ≤ (encodeRecord r).length := by
  simp [encodeRecord, List.length_append]
  omega

theorem encTail_len (rs : List FrameRecord) : 11 * rs.length + 1 ≤ (encTail rs).length := by
  induction rs with
  | nil => simp [encTail]
  | cons r tl ih =>
    have hr := encodeRecord_len r
    simp only [encTail, List.length_cons, List.length_append]
    omega

theorem parseJ_encodeSeq (S : List FrameRecord) :
    parseJ ((encodeSeq S).length + 1) (encodeSeq S) = some (jsonOfSeq S, []) := by
  cases S with
  | nil => rfl
  | cons r rs =>
    have hb1 := encodeRecord_len r
    have hb2 := encTail_len rs
    have hL : (encodeSeq (r :: rs)).length
        = (encodeRecord r).length + (encTail rs).length + 1 := by
      simp [encodeSeq, List.length_append]
    have harr : parseJ ((encodeSeq (r :: rs)).length + 1)
          ('[' :: (encodeRecord r ++ encTail rs))
        = (parseElems ((encodeSeq (r :: rs)).length)
            (encodeRecord r ++ encTail rs)).map (fun p => (JValue.arr p.1, p.2)) :=
      parseJ_arr ((encodeSeq (r :: rs)).length) lbrace _ (by decide)
    have hshape : encodeSeq (r :: rs) = '[' :: (encodeRecord r ++ encTail rs) := rfl
    rw [hshape] at harr ⊢
    rw [harr]
    obtain ⟨k, hk⟩ : ∃ k, ('[' :: (encodeRecord r ++ encTail rs)).length
        = k + 11 * rs.length + 11 := by
      refine ⟨('[' :: (encodeRecord r ++ encTail rs)).length - (11 * rs.length + 11), ?_⟩
      simp only [List.length_cons, List.length_append] at *
      omega
    rw [hk]
    have inst := parseElems_encTail rs k r []
    rw [List.append_nil] at inst
    rw [inst]
    simp [jsonOfSeq]

theorem jsonParse_encodeSeq (S : List FrameRecord) :
    jsonParse (String.mk (encodeSeq S)) = some (jsonOfSeq S) := by
  have h := parseJ_encodeSeq S
  simp [jsonParse, h]

/-! ### Codec helper lemmas: strict decoding inverts the JSON view -/

theorem recOfJsonStrict_jsonOfRecord (r : FrameRecord) :
    recOfJsonStrict (jsonOfRecord r) = some r := by
  obtain ⟨n, fl, fr, fu, fd, fa, fc⟩ := r
  simp [recOfJsonStrict, jsonOfRecord, digitsVal_natLex]

theorem recsOfJson_map (S : List FrameRecord) :
    recsOfJson (S.map jsonOfRecord) = some S := by
  induction S with
  | nil => rfl
  | cons r tl ih => simp [recsOfJson, recOfJsonStrict_jsonOfRecord, ih]

/-- C4: exporting and re-importing restores the stored sequence exactly:
the decoder applied to `exportRecording`'s output yields the recorded
sequence field for field, order and length preserved, and `importRecording`
of the exported text succeeds, storing exactly the JSON view of the
sequence. -/
theorem c4_roundtrip (st : Session) (slot : JValue) :
    decodeSeq (exportRecording st) = some st.recording ∧
    importRecording (exportRecording st) slot = (true, jsonOfSeq st.recording) := by
  have h' : jsonParse (exportRecording st)
      = some (JValue.arr (st.recording.map jsonOfRecord)) := by
    have h := jsonParse_encodeSeq st.recording
    simpa [jsonOfSeq, exportRecording] using h
  constructor
  · simp [decodeSeq, h', recsOfJson_map]
  · simp [importRecording, h', jsonOfSeq]

/-- C6 counterexample: the string "5" fails to decode as a sequence, yet
`importRecording("5")` reports success (`true`) and replaces the stored
recording slot with the parsed number — prior state is not preserved and no
failure is reported. -/
theorem c6_counterexample :
    decodeSeq "5" = none ∧
    importRecording "5" (jsonOfSeq [rec0]) = (true, JValue.num "5") ∧
    ¬ (JValue.num "5" = jsonOfSeq [rec0]) := by
  refine ⟨rfl, rfl, ?_⟩
  intro h
  exact JValue.noConfusion h

/-- C6 (amended): for every string on which JSON parsing fails,
`startPlayback` and `importRecording` report the failure and leave the prior
state exactly unchanged.  (A string that parses as JSON but is not a record
array is accepted by `importRecording` without validation — see the
counterexample.) -/
theorem c6_decode_failure_amended (s : String) (st : Session) (slot : JValue)
    (h : jsonParse s = none) :
    startPlayback (.textArg s) st = st ∧ importRecording s slot = (false, slot) := by
  constructor
  · simp [startPlayback, resolveArg, h]
  · simp [importRecording, h]

/-- C6 witness: the amended statement evaluated at the unparsable string
"junk", a fresh session and a concrete slot value. -/
theorem c6_witness :
    startPlayback (.textArg "junk") sessionInit = sessionInit ∧
    importRecording "junk" (JValue.num "5") = (false, JValue.num "5") :=
  c6_decode_failure_amended "junk" sessionInit (JValue.num "5") (by rfl)

end Kitsune
